import Mathlib

/-
Verification of the Ashta Chamma rule engine (game/models.py).

The definitions below are a shallow embedding of the board constants and of
the mutating methods of the `Game` and `Player` Django models.  Mutation is
made explicit: every operation takes the whole game state and returns the
updated state together with the result dictionary of the source method.
Piece slots (`None` / path index / "HOME" in the source) become the closed
variant `Slot`.
-/

set_option maxRecDepth 8000

namespace AshtaChamma

/-- Piece slot value: `None` (off board), a path index, or the string "HOME". -/
inductive Slot where
  | offBoard : Slot
  | onPath : Nat → Slot
  | home : Slot
deriving DecidableEq, Inhabited, Repr

/-- Player colors, as in `Player.COLORS`. -/
inductive Color where
  | red : Color
  | blue : Color
  | green : Color
  | yellow : Color
deriving DecidableEq, Inhabited, Repr

/-- Game status strings of `Game.GAME_STATUS`. -/
inductive GameStatus where
  | waiting : GameStatus
  | in_progress : GameStatus
  | completed : GameStatus
deriving DecidableEq, Inhabited, Repr

/-- The exact 7x7 board table `GRID` from models.py. -/
def GRID : List (List Nat) :=
  [[21, 20, 19, 18, 17, 16, 15],
   [22, 24, 25, 26, 27, 28, 14],
   [23, 39, 40, 41, 42, 29, 13],
   [0,  38, 47, 48, 43, 30, 12],
   [1,  37, 46, 45, 44, 31, 11],
   [2,  36, 35, 34, 33, 32, 10],
   [3,   4,  5,  6,  7,  8,  9]]

/-- `SAFE_ZONES` from models.py. -/
def SAFE_ZONES : List Nat := [18, 24, 28, 41, 0, 47, 43, 12, 45, 36, 32, 6]

/-- `HOME_INDEX` from models.py. -/
def HOME_INDEX : Nat := 48

/-- All `(r, c)` coordinates of the 7x7 grid, in the order of the source loops. -/
def coord_pairs : List (Nat × Nat) :=
  (List.range 7).flatMap (fun r => (List.range 7).map (fun c => (r, c)))

/-- The `INDEX_TO_COORD` mapping, built from `GRID` as in the source. -/
def index_to_coord (idx : Nat) : Nat × Nat :=
  ((coord_pairs.find? (fun rc => (GRID.getD rc.1 []).getD rc.2 1000 == idx)).getD (0, 0))

/-- `ring_for_index`: max Chebyshev distance from the center (3,3).
`3` is the outer ring, `2` inner, `1` middle, `0` home. -/
def ring_for_index (idx : Nat) : Nat :=
  let rc := index_to_coord idx
  max ((rc.1 : Int) - 3).natAbs ((rc.2 : Int) - 3).natAbs

/-- `ENTRY_BY_COLOR` from models.py. -/
def ENTRY_BY_COLOR : Color → Nat
  | Color.red => 0
  | Color.blue => 12
  | Color.green => 24
  | Color.yellow => 36

/-- `DICE_VALUES` from models.py. -/
def DICE_VALUES : List Nat := [1, 2, 3, 4, 5, 6, 12]

/-- `ENTRY_VALUES` from models.py. -/
def ENTRY_VALUES : List Nat := [1, 5, 6]

/-- `BONUS_VALUES` from models.py. -/
def BONUS_VALUES : List Nat := [1, 5, 6, 12]

/-- The mutable fields of the `Player` model. -/
structure Player where
  color : Color
  position : Nat
  pieces : List Slot
  kills : Nat
  finished : Nat
  team : Option Nat
deriving DecidableEq, Inhabited, Repr

/-- The mutable fields of the `Game` model; `players` ordered as the DB returns them. -/
structure Game where
  num_players : Nat
  team_mode : Bool
  status : GameStatus
  current_player : Nat
  winner : Option Nat
  players : List Player
deriving DecidableEq, Inhabited, Repr

/-- The `captured` entry of the result dict of `Player.make_move`. -/
structure Captured where
  player_position : Nat
  piece_index : Nat
deriving DecidableEq, Repr

/-- The result dict of `Player.make_move`. -/
structure MoveResult where
  ok : Bool
  reason : Option String
  fromPos : Option Nat
  toPos : Option Slot
  captured : Option Captured
  bonus : Bool
deriving DecidableEq, Repr

/-- A rejection dict `{ok: False, reason: r}` (absent keys read as None/False). -/
def rejectedResult (r : String) : MoveResult :=
  { ok := false, reason := some r, fromPos := none, toPos := none,
    captured := none, bonus := false }

/-- True for a slot holding a path index (Python: not None and not "HOME"). -/
def is_on_path : Slot → Bool
  | Slot.onPath _ => true
  | _ => false

/-- True for the "HOME" slot value. -/
def isHomeSlot : Slot → Bool
  | Slot.home => true
  | _ => false

/-- True for the `None` slot value. -/
def isOffBoard : Slot → Bool
  | Slot.offBoard => true
  | _ => false

/-- `Player.count_in_inner_or_middle`: pieces whose ring is 1 or 2. -/
def count_in_inner_or_middle (p : Player) : Nat :=
  p.pieces.foldl
    (fun cnt s =>
      match s with
      | Slot.onPath i =>
          if ring_for_index i = 1 ∨ ring_for_index i = 2 then cnt + 1 else cnt
      | _ => cnt) 0

/-- `Player.can_enter_with_roll`. -/
def can_enter_with_roll (p : Player) (roll : Nat) : Bool :=
  if p.pieces.all (fun x => !(isOffBoard x)) then false
  else if ENTRY_VALUES.contains roll then true
  else if roll = 12 then p.pieces.any is_on_path
  else false

/-- `Player.entry_index`. -/
def entry_index (p : Player) : Nat := ENTRY_BY_COLOR p.color

/-- `Game.check_and_set_winner` (solo: finished >= 6; team: summed finished >= 12). -/
def check_and_set_winner (g : Game) (mover : Nat) : Game :=
  let p := g.players.getD mover default
  if g.team_mode = false then
    if 6 ≤ p.finished then
      { g with status := GameStatus.completed, winner := some p.position }
    else g
  else
    let total : Nat := (g.players.filter (fun t => t.team == p.team)).foldl
      (fun a t => a + t.finished) 0
    if 12 ≤ total then
      { g with status := GameStatus.completed, winner := some p.position }
    else g

/-- `Game.advance_turn`: advance `current_player` unless a bonus was granted. -/
def advance_turn (g : Game) (bonus : Bool) : Game :=
  if bonus = false then
    { g with current_player := (g.current_player + 1) % g.num_players }
  else g

/-- The indices of the mover's opponents (`players.exclude(id=self.id)`). -/
def opponent_indices (g : Game) (mover : Nat) : List Nat :=
  (List.range g.players.length).filter (fun j => j != mover)

/-- First slot index of `pieces` holding exactly the path index `dest`
(the inner `enumerate` loop of the capture scans). -/
def find_piece_at : List Slot → Nat → Option Nat
  | [], _ => none
  | s :: rest, dest =>
      if s = Slot.onPath dest then some 0
      else (find_piece_at rest dest).map (fun k => k + 1)

/-- Remove the defender's piece `k` of player `j` and increment the mover's kills
(the capture action shared by both capture loops). -/
def apply_capture (g : Game) (mover j k : Nat) : Captured × Game :=
  let opp := g.players.getD j default
  let opp2 := { opp with pieces := opp.pieces.set k Slot.offBoard }
  let g1 := { g with players := g.players.set j opp2 }
  let mv := g1.players.getD mover default
  let g2 := { g1 with players := g1.players.set mover { mv with kills := mv.kills + 1 } }
  ({ player_position := opp.position, piece_index := k }, g2)

/-- The opponent scan of `Player.make_move` (lines 325-349): on a protected hit
the scan continues with the next opponent; on a capture it stops. -/
def make_move_capture_scan (g : Game) (mover : Nat) (dest : Nat) :
    List Nat → Option Captured × Game
  | [] => (none, g)
  | j :: rest =>
      let opp := g.players.getD j default
      match find_piece_at opp.pieces dest with
      | none => make_move_capture_scan g mover dest rest
      | some k =>
          if 2 ≤ count_in_inner_or_middle opp ∧
              count_in_inner_or_middle (g.players.getD mover default) = 1 then
            make_move_capture_scan g mover dest rest
          else
            let ck := apply_capture g mover j k
            (some ck.1, ck.2)

/-- The opponent scan of `Player._resolve_capture_on_index`: a protected hit
returns None immediately (no further opponents are scanned). -/
def resolve_scan (g : Game) (mover : Nat) (idx : Nat) :
    List Nat → Option Captured × Game
  | [] => (none, g)
  | j :: rest =>
      let opp := g.players.getD j default
      match find_piece_at opp.pieces idx with
      | none => resolve_scan g mover idx rest
      | some k =>
          if 2 ≤ count_in_inner_or_middle opp ∧
              count_in_inner_or_middle (g.players.getD mover default) = 1 then
            (none, g)
          else
            let ck := apply_capture g mover j k
            (some ck.1, ck.2)

/-- `Player._resolve_capture_on_index`. -/
def resolve_capture_on_index (g : Game) (mover : Nat) (idx : Nat) :
    Option Captured × Game :=
  if SAFE_ZONES.contains idx then (none, g)
  else resolve_scan g mover idx (opponent_indices g mover)

/-- The `effective_roll` computation of `Player.make_move` (Lone Wolf cap). -/
def effective_roll_of (p : Player) (origin : Nat) (roll : Nat) : Nat :=
  if count_in_inner_or_middle p = 1 ∧
      (ring_for_index origin = 1 ∨ ring_for_index origin = 2) ∧ 5 < roll
  then 5 else roll

/-- The off-board branch of `Player.make_move` (entry, lines 249-266). -/
def move_entry (g : Game) (mover : Nat) (pi : Nat) (roll : Nat) : MoveResult × Game :=
  let p := g.players.getD mover default
  if can_enter_with_roll p roll = false then
    (rejectedResult "cannot-enter-with-this-roll", g)
  else
    let e := entry_index p
    let p1 := { p with pieces := p.pieces.set pi (Slot.onPath e) }
    let g1 := { g with players := g.players.set mover p1 }
    let res := resolve_capture_on_index g1 mover e
    ({ ok := true, reason := none, fromPos := none, toPos := some (Slot.onPath e),
       captured := res.1,
       bonus := BONUS_VALUES.contains roll || res.1.isSome }, res.2)

/-- The on-path branch of `Player.make_move` (lines 272-358). -/
def move_on_path (g : Game) (mover : Nat) (pi : Nat) (roll : Nat) (origin : Nat) :
    MoveResult × Game :=
  let p := g.players.getD mover default
  let origin_ring := ring_for_index origin
  let eff := effective_roll_of p origin roll
  let dest := origin + eff
  if HOME_INDEX < dest then (rejectedResult "overshoot-home", g)
  else
    let dest_ring := if dest = HOME_INDEX then 0 else ring_for_index dest
    if origin_ring = 3 ∧ dest_ring ≤ 2 ∧ p.kills = 0 then
      (rejectedResult "blood-gate-blocked", g)
    else if dest = HOME_INDEX then
      let ph := { p with pieces := p.pieces.set pi Slot.home, finished := p.finished + 1 }
      let g1 := { g with players := g.players.set mover ph }
      let g2 := check_and_set_winner g1 mover
      ({ ok := true, reason := none, fromPos := some origin, toPos := some Slot.home,
         captured := none, bonus := BONUS_VALUES.contains roll }, g2)
    else
      let sc :=
        if SAFE_ZONES.contains dest = false then
          make_move_capture_scan g mover dest (opponent_indices g mover)
        else (none, g)
      let p1 := sc.2.players.getD mover default
      let p2 := { p1 with pieces := p1.pieces.set pi (Slot.onPath dest) }
      let g2 := { sc.2 with players := sc.2.players.set mover p2 }
      ({ ok := true, reason := none, fromPos := some origin,
         toPos := some (Slot.onPath dest), captured := sc.1,
         bonus := BONUS_VALUES.contains roll || sc.1.isSome }, g2)

/-- `Player.make_move`: full move attempt, returning the result dict and the
post state (the acting player is `g.players` entry `mover`). -/
def make_move (g : Game) (mover : Nat) (piece_index : Int) (roll : Nat) :
    MoveResult × Game :=
  if g.status ≠ GameStatus.in_progress then (rejectedResult "game-not-active", g)
  else if ¬(0 ≤ piece_index ∧ piece_index < 6) then
    (rejectedResult "invalid-piece-index", g)
  else
    match (g.players.getD mover default).pieces.getD piece_index.toNat Slot.home with
    | Slot.offBoard => move_entry g mover piece_index.toNat roll
    | Slot.home => (rejectedResult "piece-already-home", g)
    | Slot.onPath origin => move_on_path g mover piece_index.toNat roll origin

/-- Number of `None` slots in a pieces list. -/
def countOff (l : List Slot) : Nat := (l.filter isOffBoard).length

/-- Number of on-path slots in a pieces list. -/
def countOn (l : List Slot) : Nat := (l.filter is_on_path).length

/-- Number of "HOME" slots in a pieces list. -/
def countHome (l : List Slot) : Nat := (l.filter isHomeSlot).length

/-- Piece-slot bookkeeping invariant of one player record: six slots whose
OffBoard/OnPath/Home counts sum to six, with `finished` equal to the number of
Home slots. -/
def pieceOk (p : Player) : Prop :=
  p.pieces.length = 6 ∧
  countOff p.pieces + countOn p.pieces + countHome p.pieces = 6 ∧
  p.finished = countHome p.pieces

/-- Six off-board slots (a freshly initialized pieces array). -/
def offs : List Slot :=
  [Slot.offBoard, Slot.offBoard, Slot.offBoard, Slot.offBoard, Slot.offBoard,
   Slot.offBoard]

/-- Build a solo-mode player record. -/
def mkP (c : Color) (pos : Nat) (ps : List Slot) (k f : Nat) : Player :=
  { color := c, position := pos, pieces := ps, kills := k, finished := f,
    team := none }

/-- Build an in-progress two-player solo game. -/
def mkG (ps : List Player) : Game :=
  { num_players := 2, team_mode := false, status := GameStatus.in_progress,
    current_player := 0, winner := none, players := ps }

/-- Concrete game for claim C1: red has one piece on the board at path index 1
and five off-board pieces. -/
def G1 : Game := mkG
  [mkP Color.red 0 [Slot.onPath 1, Slot.offBoard, Slot.offBoard, Slot.offBoard,
      Slot.offBoard, Slot.offBoard] 0 0,
   mkP Color.blue 1 offs 0 0]

/-- Concrete game for claim C2: red (the mover) holds two Inner/Middle pieces
at 25 and 27; blue (the defender) holds its lone Inner/Middle piece at 29. -/
def G2 : Game := mkG
  [mkP Color.red 0 [Slot.onPath 25, Slot.onPath 27, Slot.offBoard, Slot.offBoard,
      Slot.offBoard, Slot.offBoard] 1 0,
   mkP Color.blue 1 [Slot.onPath 29, Slot.offBoard, Slot.offBoard, Slot.offBoard,
      Slot.offBoard, Slot.offBoard] 0 0]

/-- Concrete game for claim C3: a freshly started game whose first player is
green, with every piece off board and zero kills. -/
def G3 : Game := mkG [mkP Color.green 0 offs 0 0, mkP Color.red 1 offs 0 0]

/-- Concrete game for the C5 witness: red's piece sits at path index 44. -/
def G5 : Game := mkG
  [mkP Color.red 0 [Slot.onPath 44, Slot.offBoard, Slot.offBoard, Slot.offBoard,
      Slot.offBoard, Slot.offBoard] 0 0,
   mkP Color.blue 1 offs 0 0]

/-- Concrete game for the C6 witness: red's lone Inner/Middle piece is at 40. -/
def G6 : Game := mkG
  [mkP Color.red 0 [Slot.onPath 40, Slot.offBoard, Slot.offBoard, Slot.offBoard,
      Slot.offBoard, Slot.offBoard] 1 0,
   mkP Color.blue 1 offs 0 0]

/-- Concrete game for the C8 witness: red has every piece off board. -/
def G8 : Game := mkG [mkP Color.red 0 offs 0 0, mkP Color.blue 1 offs 0 0]

/-- Post state of the exact-home branch of `Player.make_move` (lines 309-319). -/
def home_post (g : Game) (mover : Nat) (pi : Nat) : Game :=
  let p := g.players.getD mover default
  let ph := { p with pieces := p.pieces.set pi Slot.home, finished := p.finished + 1 }
  check_and_set_winner { g with players := g.players.set mover ph } mover

/-- Capture outcome and post state of the normal-movement branch of
`Player.make_move` (lines 321-353). -/
def normal_post (g : Game) (mover : Nat) (pi : Nat) (dest : Nat) :
    Option Captured × Game :=
  let sc :=
    if SAFE_ZONES.contains dest = false then
      make_move_capture_scan g mover dest (opponent_indices g mover)
    else (none, g)
  let p1 := sc.2.players.getD mover default
  let p2 := { p1 with pieces := p1.pieces.set pi (Slot.onPath dest) }
  (sc.1, { sc.2 with players := sc.2.players.set mover p2 })

/-- The player record after placing the piece of slot `pi` on the entry
square (line 259 of models.py). -/
def entered_player (p : Player) (pi : Nat) : Player :=
  { p with pieces := p.pieces.set pi (Slot.onPath (entry_index p)) }

/-- Capture outcome and post state of the entry branch of `Player.make_move`
(lines 249-266). -/
def entry_post (g : Game) (mover : Nat) (pi : Nat) : Option Captured × Game :=
  let p := g.players.getD mover default
  let p1 := { p with pieces := p.pieces.set pi (Slot.onPath (entry_index p)) }
  let g1 := { g with players := g.players.set mover p1 }
  resolve_capture_on_index g1 mover (entry_index p)

/-! ### Basic list bookkeeping lemmas -/

theorem getD_set_self {α : Type} (l : List α) (n : Nat) (a d : α)
    (h : n < l.length) : (l.set n a).getD n d = a := by
  simp [List.getD_eq_getElem?_getD, List.getElem?_set_self h]

theorem getD_set_of_ne {α : Type} (l : List α) (n m : Nat) (a d : α)
    (h : n ≠ m) : (l.set n a).getD m d = l.getD m d := by
  simp [List.getD_eq_getElem?_getD, List.getElem?_set_ne h]

theorem getD_mem {α : Type} (l : List α) (n : Nat) (d : α)
    (h : n < l.length) : l.getD n d ∈ l := by
  rw [List.getD_eq_getElem?_getD, List.getElem?_eq_getElem h]
  exact List.getElem_mem h

theorem countHome_cons (x : Slot) (xs : List Slot) :
    countHome (x :: xs) = (if isHomeSlot x then 1 else 0) + countHome xs := by
  simp only [countHome, List.filter_cons]
  split <;> simp [Nat.add_comm]

theorem count_partition (l : List Slot) :
    countOff l + countOn l + countHome l = l.length := by
  induction l with
  | nil => rfl
  | cons s t ih =>
      cases s <;>
        simp [countOff, countOn, countHome, List.filter_cons, isOffBoard,
          is_on_path, isHomeSlot] at ih ⊢ <;>
        omega

theorem countHome_set_of_ne (l : List Slot) (k : Nat) (s t : Slot)
    (hs : l[k]? = some s) (h1 : isHomeSlot s = false) (h2 : isHomeSlot t = false) :
    countHome (l.set k t) = countHome l := by
  induction l generalizing k with
  | nil => simp at hs
  | cons x xs ih =>
      cases k with
      | zero =>
          simp only [List.getElem?_cons_zero, Option.some.injEq] at hs
          subst hs
          simp [List.set, countHome_cons, h1, h2]
      | succ m =>
          have hs2 : xs[m]? = some s := by simpa using hs
          simp [List.set, countHome_cons, ih m hs2]

theorem countHome_set_home (l : List Slot) (k : Nat) (s : Slot)
    (hs : l[k]? = some s) (h1 : isHomeSlot s = false) :
    countHome (l.set k Slot.home) = countHome l + 1 := by
  induction l generalizing k with
  | nil => simp at hs
  | cons x xs ih =>
      cases k with
      | zero =>
          simp only [List.getElem?_cons_zero, Option.some.injEq] at hs
          subst hs
          rw [show (x :: xs).set 0 Slot.home = Slot.home :: xs from rfl]
          rw [countHome_cons, countHome_cons, h1]
          simp [isHomeSlot]
          omega
      | succ m =>
          have hs2 : xs[m]? = some s := by simpa using hs
          simp [List.set, countHome_cons, ih m hs2]
          omega

/-! ### Branch reduction lemmas for `make_move` -/

theorem make_move_eq_entry (g : Game) (mover : Nat) (piece_index : Int)
    (roll : Nat)
    (hs : g.status = GameStatus.in_progress)
    (h0 : 0 ≤ piece_index) (h6 : piece_index < 6)
    (hSlot : (g.players.getD mover default).pieces.getD piece_index.toNat
        Slot.home = Slot.offBoard) :
    make_move g mover piece_index roll = move_entry g mover piece_index.toNat roll := by
  unfold make_move
  rw [if_neg (fun hn => hn hs), if_neg (not_not_intro ⟨h0, h6⟩), hSlot]

theorem make_move_eq_onPath (g : Game) (mover : Nat) (piece_index : Int)
    (roll origin : Nat)
    (hs : g.status = GameStatus.in_progress)
    (h0 : 0 ≤ piece_index) (h6 : piece_index < 6)
    (hSlot : (g.players.getD mover default).pieces.getD piece_index.toNat
        Slot.home = Slot.onPath origin) :
    make_move g mover piece_index roll
      = move_on_path g mover piece_index.toNat roll origin := by
  unfold make_move
  rw [if_neg (fun hn => hn hs), if_neg (not_not_intro ⟨h0, h6⟩), hSlot]

theorem csw_players (g : Game) (mover : Nat) :
    (check_and_set_winner g mover).players = g.players := by
  simp only [check_and_set_winner]
  split <;> split <;> rfl

theorem dice_bounds (roll : Nat) (h : roll ∈ DICE_VALUES) :
    1 ≤ roll ∧ roll ≤ 12 := by
  simp [DICE_VALUES] at h
  rcases h with rfl | rfl | rfl | rfl | rfl | rfl | rfl <;> decide

theorem ring_36_47 (o : Nat) (h1 : 36 ≤ o) (h2 : o < 48) :
    ring_for_index o = 1 ∨ ring_for_index o = 2 := by
  have h : ∀ o < 48, 36 ≤ o → (ring_for_index o = 1 ∨ ring_for_index o = 2) := by
    decide
  exact h o h2 h1

theorem effective_roll_cases (p : Player) (origin roll : Nat) :
    effective_roll_of p origin roll = 5 ∨ effective_roll_of p origin roll = roll := by
  unfold effective_roll_of
  split
  · exact Or.inl rfl
  · exact Or.inr rfl

/-! ### Result lemmas for each branch of `move_on_path` -/

theorem move_on_path_overshoot (g : Game) (mover pi roll origin : Nat)
    (h : HOME_INDEX
      < origin + effective_roll_of (g.players.getD mover default) origin roll) :
    move_on_path g mover pi roll origin = (rejectedResult "overshoot-home", g) := by
  simp only [move_on_path]
  rw [if_pos h]

theorem move_on_path_bloodgate (g : Game) (mover pi roll origin : Nat)
    (h1 : ¬ HOME_INDEX
      < origin + effective_roll_of (g.players.getD mover default) origin roll)
    (h2 : ring_for_index origin = 3 ∧
      (if origin + effective_roll_of (g.players.getD mover default) origin roll
          = HOME_INDEX then 0
       else ring_for_index
          (origin + effective_roll_of (g.players.getD mover default) origin roll))
        ≤ 2 ∧
      (g.players.getD mover default).kills = 0) :
    move_on_path g mover pi roll origin = (rejectedResult "blood-gate-blocked", g) := by
  simp only [move_on_path]
  rw [if_neg h1, if_pos h2]

theorem move_on_path_home (g : Game) (mover pi roll origin : Nat)
    (hex : origin + effective_roll_of (g.players.getD mover default) origin roll
      = HOME_INDEX)
    (hbg : ¬(ring_for_index origin = 3 ∧ (g.players.getD mover default).kills = 0)) :
    move_on_path g mover pi roll origin =
      ({ ok := true, reason := none, fromPos := some origin,
         toPos := some Slot.home, captured := none,
         bonus := BONUS_VALUES.contains roll }, home_post g mover pi) := by
  have hno : ¬ HOME_INDEX
      < origin + effective_roll_of (g.players.getD mover default) origin roll := by
    rw [hex]
    exact Nat.lt_irrefl HOME_INDEX
  simp only [move_on_path]
  rw [if_neg hno]
  rw [if_neg (fun hand => hbg ⟨hand.1, hand.2.2⟩)]
  rw [if_pos hex]
  rfl

theorem move_on_path_normal (g : Game) (mover pi roll origin : Nat)
    (h1 : ¬ HOME_INDEX
      < origin + effective_roll_of (g.players.getD mover default) origin roll)
    (hbg : ¬(ring_for_index origin = 3 ∧
      (if origin + effective_roll_of (g.players.getD mover default) origin roll
          = HOME_INDEX then 0
       else ring_for_index
          (origin + effective_roll_of (g.players.getD mover default) origin roll))
        ≤ 2 ∧
      (g.players.getD mover default).kills = 0))
    (hne : origin + effective_roll_of (g.players.getD mover default) origin roll
      ≠ HOME_INDEX) :
    move_on_path g mover pi roll origin =
      ({ ok := true, reason := none, fromPos := some origin,
         toPos := some (Slot.onPath
           (origin + effective_roll_of (g.players.getD mover default) origin roll)),
         captured := (normal_post g mover pi
           (origin + effective_roll_of (g.players.getD mover default) origin roll)).1,
         bonus := BONUS_VALUES.contains roll
           || (normal_post g mover pi
             (origin
               + effective_roll_of (g.players.getD mover default) origin roll)).1.isSome },
       (normal_post g mover pi
         (origin + effective_roll_of (g.players.getD mover default) origin roll)).2) := by
  simp only [move_on_path]
  rw [if_neg h1, if_neg hbg, if_neg hne]
  rfl

/-! ### Result lemmas for the entry branch and the rejection paths -/

theorem move_entry_reject (g : Game) (mover pi roll : Nat)
    (h : can_enter_with_roll (g.players.getD mover default) roll = false) :
    move_entry g mover pi roll = (rejectedResult "cannot-enter-with-this-roll", g) := by
  simp only [move_entry]
  rw [if_pos h]

theorem move_entry_applied (g : Game) (mover pi roll : Nat)
    (h : can_enter_with_roll (g.players.getD mover default) roll = true) :
    move_entry g mover pi roll =
      ({ ok := true, reason := none, fromPos := none,
         toPos := some (Slot.onPath (entry_index (g.players.getD mover default))),
         captured := (entry_post g mover pi).1,
         bonus := BONUS_VALUES.contains roll || (entry_post g mover pi).1.isSome },
       (entry_post g mover pi).2) := by
  have hne : ¬ can_enter_with_roll (g.players.getD mover default) roll = false := by
    intro hf
    rw [h] at hf
    exact Bool.noConfusion hf
  simp only [move_entry]
  rw [if_neg hne]
  rfl

theorem make_move_not_active (g : Game) (mover : Nat) (piece_index : Int)
    (roll : Nat) (h : g.status ≠ GameStatus.in_progress) :
    make_move g mover piece_index roll = (rejectedResult "game-not-active", g) := by
  unfold make_move
  rw [if_pos h]

theorem make_move_bad_index (g : Game) (mover : Nat) (piece_index : Int)
    (roll : Nat) (hs : g.status = GameStatus.in_progress)
    (h : ¬(0 ≤ piece_index ∧ piece_index < 6)) :
    make_move g mover piece_index roll = (rejectedResult "invalid-piece-index", g) := by
  unfold make_move
  rw [if_neg (fun hn => hn hs), if_pos h]

theorem make_move_home_slot (g : Game) (mover : Nat) (piece_index : Int)
    (roll : Nat) (hs : g.status = GameStatus.in_progress)
    (h0 : 0 ≤ piece_index) (h6 : piece_index < 6)
    (hSlot : (g.players.getD mover default).pieces.getD piece_index.toNat
        Slot.home = Slot.home) :
    make_move g mover piece_index roll = (rejectedResult "piece-already-home", g) := by
  unfold make_move
  rw [if_neg (fun hn => hn hs), if_neg (not_not_intro ⟨h0, h6⟩), hSlot]

theorem bg_reduced_of (g : Game) (mover origin roll : Nat)
    (h3 : origin + effective_roll_of (g.players.getD mover default) origin roll
      = HOME_INDEX)
    (h2 : ¬(ring_for_index origin = 3 ∧
      (if origin + effective_roll_of (g.players.getD mover default) origin roll
          = HOME_INDEX then 0
       else ring_for_index
          (origin + effective_roll_of (g.players.getD mover default) origin roll))
        ≤ 2 ∧
      (g.players.getD mover default).kills = 0)) :
    ¬(ring_for_index origin = 3 ∧ (g.players.getD mover default).kills = 0) :=
  fun hc => h2 ⟨hc.1, by rw [if_pos h3]; exact Nat.zero_le 2, hc.2⟩

/-- Exhaustive description of the result forms of `make_move`: a rejection
that leaves the state untouched, an applied entry, an applied exact-home
arrival, or an applied normal movement. -/
theorem make_move_shape (g : Game) (mover : Nat) (piece_index : Int) (roll : Nat) :
    (∃ r, make_move g mover piece_index roll = (rejectedResult r, g)) ∨
    (∃ e cpost, cpost = entry_post g mover piece_index.toNat ∧
      make_move g mover piece_index roll =
        ({ ok := true, reason := none, fromPos := none,
           toPos := some (Slot.onPath e), captured := cpost.1,
           bonus := BONUS_VALUES.contains roll || cpost.1.isSome },
         (cpost : Option Captured × Game).2)) ∨
    (∃ origin gpost, make_move g mover piece_index roll =
        ({ ok := true, reason := none, fromPos := some origin,
           toPos := some Slot.home, captured := none,
           bonus := BONUS_VALUES.contains roll }, (gpost : Game))) ∨
    (∃ origin dest cpost,
      cpost = normal_post g mover piece_index.toNat dest ∧
      make_move g mover piece_index roll =
        ({ ok := true, reason := none, fromPos := some origin,
           toPos := some (Slot.onPath dest), captured := cpost.1,
           bonus := BONUS_VALUES.contains roll || cpost.1.isSome },
         (cpost : Option Captured × Game).2)) := by
  by_cases hs : g.status = GameStatus.in_progress
  · by_cases hidx : 0 ≤ piece_index ∧ piece_index < 6
    · cases hslot : (g.players.getD mover default).pieces.getD piece_index.toNat
          Slot.home with
      | offBoard =>
          rw [make_move_eq_entry g mover piece_index roll hs hidx.1 hidx.2 hslot]
          by_cases hce : can_enter_with_roll (g.players.getD mover default) roll
              = false
          · exact Or.inl ⟨_, move_entry_reject g mover _ roll hce⟩
          · exact Or.inr (Or.inl ⟨_, _, rfl,
              move_entry_applied g mover _ roll (by simpa using hce)⟩)
      | onPath o =>
          rw [make_move_eq_onPath g mover piece_index roll o hs hidx.1 hidx.2 hslot]
          by_cases h1 : HOME_INDEX
              < o + effective_roll_of (g.players.getD mover default) o roll
          · exact Or.inl ⟨_, move_on_path_overshoot g mover _ roll o h1⟩
          · by_cases h2 : ring_for_index o = 3 ∧
                (if o + effective_roll_of (g.players.getD mover default) o roll
                    = HOME_INDEX then 0
                 else ring_for_index
                    (o + effective_roll_of (g.players.getD mover default) o roll))
                  ≤ 2 ∧
                (g.players.getD mover default).kills = 0
            · exact Or.inl ⟨_, move_on_path_bloodgate g mover _ roll o h1 h2⟩
            · by_cases h3 : o + effective_roll_of (g.players.getD mover default) o roll
                  = HOME_INDEX
              · exact Or.inr (Or.inr (Or.inl ⟨o, _,
                  move_on_path_home g mover _ roll o h3
                    (bg_reduced_of g mover o roll h3 h2)⟩))
              · exact Or.inr (Or.inr (Or.inr ⟨o, _, _, rfl,
                  move_on_path_normal g mover _ roll o h1 h2 h3⟩))
      | home =>
          exact Or.inl ⟨_, make_move_home_slot g mover piece_index roll hs
            hidx.1 hidx.2 hslot⟩
    · exact Or.inl ⟨_, make_move_bad_index g mover piece_index roll hs hidx⟩
  · exact Or.inl ⟨_, make_move_not_active g mover piece_index roll hs⟩

theorem make_move_reject_frame (g : Game) (mover : Nat) (piece_index : Int)
    (roll : Nat) (h : (make_move g mover piece_index roll).1.ok = false) :
    (make_move g mover piece_index roll).2 = g := by
  rcases make_move_shape g mover piece_index roll with
    ⟨r, he⟩ | ⟨e, c, hc, he⟩ | ⟨o, gp, he⟩ | ⟨o, d, c, hc, he⟩
  · rw [he]
  · rw [he] at h
    exact Bool.noConfusion h
  · rw [he] at h
    exact Bool.noConfusion h
  · rw [he] at h
    exact Bool.noConfusion h

theorem make_move_bonus_eq (g : Game) (mover : Nat) (piece_index : Int)
    (roll : Nat) (h : (make_move g mover piece_index roll).1.ok = true) :
    (make_move g mover piece_index roll).1.bonus
      = (BONUS_VALUES.contains roll
          || (make_move g mover piece_index roll).1.captured.isSome) := by
  rcases make_move_shape g mover piece_index roll with
    ⟨r, he⟩ | ⟨e, c, hc, he⟩ | ⟨o, gp, he⟩ | ⟨o, d, c, hc, he⟩
  · rw [he] at h
    exact Bool.noConfusion h
  · rw [he]
  · rw [he]
    simp
  · rw [he]

/-! ### Claim theorems -/

/-- Claim C1: the claim states a dice value of 12 on an OffBoard slot is always
rejected.  The code refutes this: in `G1` red has a piece on the board, so
`can_enter_with_roll` accepts 12 and `make_move` enters the off-board piece of
slot 1 at red's entry square 0. -/
theorem C1_roll12_enters :
    can_enter_with_roll (G1.players.getD 0 default) 12 = true ∧
    (make_move G1 0 1 12).1.ok = true ∧
    (make_move G1 0 1 12).1.toPos = some (Slot.onPath 0) ∧
    ((make_move G1 0 1 12).2.players.getD 0 default).pieces.getD 1 Slot.home
      = Slot.onPath 0 := by
  decide

/-- Claim C2: the claim states a capture is suppressed when the defender holds
its lone Inner/Middle piece and the mover holds two or more.  The code refutes
this: in `G2` the mover (red) has two Inner/Middle pieces, the defender (blue)
has exactly one at index 29, yet moving red's piece from 25 with a roll of 4
captures the lone piece and increments red's kills. -/
theorem C2_underdog_roles_swapped :
    count_in_inner_or_middle (G2.players.getD 0 default) = 2 ∧
    count_in_inner_or_middle (G2.players.getD 1 default) = 1 ∧
    SAFE_ZONES.contains 29 = false ∧
    (make_move G2 0 0 4).1.ok = true ∧
    (make_move G2 0 0 4).1.captured
      = some { player_position := 1, piece_index := 0 } ∧
    ((make_move G2 0 0 4).2.players.getD 1 default).pieces.getD 0 Slot.home
      = Slot.offBoard ∧
    ((make_move G2 0 0 4).2.players.getD 0 default).kills = 2 := by
  decide

/-- Claim C3: the claim states a player with zero kills can never hold a piece
in the Inner or Middle ring.  The code refutes this in one move from a fresh
start: in `G3` green (kills 0, all pieces off board) enters with a roll of 1
and its piece lands on the entry square 24, whose ring is 2 (Inner). -/
theorem C3_blood_gate_leak :
    (∀ p ∈ G3.players, p.kills = 0 ∧ p.pieces = offs) ∧
    (make_move G3 0 0 1).1.ok = true ∧
    ((make_move G3 0 0 1).2.players.getD 0 default).kills = 0 ∧
    ((make_move G3 0 0 1).2.players.getD 0 default).pieces.getD 0 Slot.home
      = Slot.onPath 24 ∧
    ring_for_index 24 = 2 := by
  decide

/-- Claim C4 counterexample: the entry-to-home distances are not equal across
colors; red's distance is 48 while blue's is 36. -/
theorem C4_counterexample :
    ¬(HOME_INDEX - ENTRY_BY_COLOR Color.red
        = HOME_INDEX - ENTRY_BY_COLOR Color.blue) := by
  decide

/-- Claim C4 (amended): the number of path squares from each color's entry
square to the shared home square is 48, 36, 24 and 12 for red, blue, green and
yellow respectively — the four entry squares are evenly spaced 12 apart, but
the path lengths differ per color. -/
theorem C4_amended :
    HOME_INDEX - ENTRY_BY_COLOR Color.red = 48 ∧
    HOME_INDEX - ENTRY_BY_COLOR Color.blue = 36 ∧
    HOME_INDEX - ENTRY_BY_COLOR Color.green = 24 ∧
    HOME_INDEX - ENTRY_BY_COLOR Color.yellow = 12 := by
  decide

/-- Claim C7: for every applied move the bonus flag equals "rolled value in
{1,5,6,12} or a capture occurred", and the turn controller keeps
`current_player` on a bonus and advances it by one modulo `num_players`
otherwise. -/
theorem C7_bonus_and_turn (g g2 : Game) (mover : Nat) (piece_index : Int)
    (roll : Nat) :
    ((make_move g mover piece_index roll).1.ok = true →
      (make_move g mover piece_index roll).1.bonus
        = (BONUS_VALUES.contains roll
            || (make_move g mover piece_index roll).1.captured.isSome)) ∧
    (advance_turn g2 true).current_player = g2.current_player ∧
    (advance_turn g2 false).current_player
      = (g2.current_player + 1) % g2.num_players := by
  refine ⟨fun h => make_move_bonus_eq g mover piece_index roll h, ?_, ?_⟩
  · unfold advance_turn
    rw [if_neg (fun hf => Bool.noConfusion hf)]
  · unfold advance_turn
    rw [if_pos rfl]

/-- Witness for C7 at a concrete applied move (red reaches home from 44 with
a roll of 4 in `G5`). -/
theorem C7_bonus_and_turn_witness :
    (make_move G5 0 0 4).1.ok = true ∧
    ((make_move G5 0 0 4).1.bonus
      = (BONUS_VALUES.contains 4 || (make_move G5 0 0 4).1.captured.isSome) ∧
     (advance_turn G5 true).current_player = G5.current_player ∧
     (advance_turn G5 false).current_player
       = (G5.current_player + 1) % G5.num_players) :=
  ⟨by decide,
   ⟨(C7_bonus_and_turn G5 G5 0 0 4).1 (by decide),
    (C7_bonus_and_turn G5 G5 0 0 4).2.1,
    (C7_bonus_and_turn G5 G5 0 0 4).2.2⟩⟩

/-- Claim C8: every rejected move attempt leaves the whole game state
unchanged, and repeating the identical call on the post state returns the
identical result (same rejection reason). -/
theorem C8_rejection_pure (g : Game) (mover : Nat) (piece_index : Int)
    (roll : Nat) (h : (make_move g mover piece_index roll).1.ok = false) :
    (make_move g mover piece_index roll).2 = g ∧
    make_move (make_move g mover piece_index roll).2 mover piece_index roll
      = make_move g mover piece_index roll := by
  have h2 := make_move_reject_frame g mover piece_index roll h
  exact ⟨h2, by rw [h2]⟩

/-- Witness for C8 at a concrete rejected move (red cannot enter with a roll
of 2 in `G8`). -/
theorem C8_rejection_pure_witness :
    (make_move G8 0 0 2).1.ok = false ∧
    ((make_move G8 0 0 2).2 = G8 ∧
     make_move (make_move G8 0 0 2).2 0 0 2 = make_move G8 0 0 2) :=
  ⟨by decide, C8_rejection_pure G8 0 0 2 (by decide)⟩

/-- Claim C5: moving an on-path piece with an effective roll that overshoots
the home index is rejected with no state change, while an exact landing on the
home index sends the piece Home, increments `finished` by one, captures
nothing, and touches no other player and not the mover's kills. -/
theorem C5_exact_home (g : Game) (mover : Nat) (piece_index : Int)
    (roll origin : Nat)
    (hs : g.status = GameStatus.in_progress)
    (h0 : 0 ≤ piece_index) (h6 : piece_index < 6)
    (hMover : mover < g.players.length)
    (hSlot : (g.players.getD mover default).pieces.getD piece_index.toNat
        Slot.home = Slot.onPath origin)
    (hDice : roll ∈ DICE_VALUES) :
    (HOME_INDEX
        < origin + effective_roll_of (g.players.getD mover default) origin roll →
      (make_move g mover piece_index roll).1.ok = false ∧
      (make_move g mover piece_index roll).1.reason = some "overshoot-home" ∧
      (make_move g mover piece_index roll).2 = g) ∧
    (origin + effective_roll_of (g.players.getD mover default) origin roll
        = HOME_INDEX →
      (make_move g mover piece_index roll).1.ok = true ∧
      (make_move g mover piece_index roll).1.captured = none ∧
      ((make_move g mover piece_index roll).2.players.getD mover default).pieces
        = (g.players.getD mover default).pieces.set piece_index.toNat Slot.home ∧
      ((make_move g mover piece_index roll).2.players.getD mover default).finished
        = (g.players.getD mover default).finished + 1 ∧
      ((make_move g mover piece_index roll).2.players.getD mover default).kills
        = (g.players.getD mover default).kills ∧
      ∀ j, j < g.players.length → j ≠ mover →
        (make_move g mover piece_index roll).2.players.getD j default
          = g.players.getD j default) := by
  have hred := make_move_eq_onPath g mover piece_index roll origin hs h0 h6 hSlot
  constructor
  · intro hover
    rw [hred, move_on_path_overshoot g mover _ roll origin hover]
    exact ⟨rfl, rfl, rfl⟩
  · intro hex
    have hd := dice_bounds roll hDice
    have heffb : 1 ≤ effective_roll_of (g.players.getD mover default) origin roll ∧
        effective_roll_of (g.players.getD mover default) origin roll ≤ 12 := by
      rcases effective_roll_cases (g.players.getD mover default) origin roll with
        he | he
      · rw [he]
        omega
      · rw [he]
        exact hd
    have hex48 : origin + effective_roll_of (g.players.getD mover default) origin roll
        = 48 := hex
    have horig : 36 ≤ origin ∧ origin < 48 := by omega
    have hring := ring_36_47 origin horig.1 horig.2
    have hbg : ¬(ring_for_index origin = 3 ∧
        (g.players.getD mover default).kills = 0) := by
      intro hc
      rcases hring with hr | hr <;> omega
    rw [hred, move_on_path_home g mover _ roll origin hex hbg]
    refine ⟨rfl, rfl, ?_, ?_, ?_, ?_⟩
    · simp only [home_post]
      rw [csw_players]
      dsimp only
      rw [getD_set_self _ _ _ _ hMover]
    · simp only [home_post]
      rw [csw_players]
      dsimp only
      rw [getD_set_self _ _ _ _ hMover]
    · simp only [home_post]
      rw [csw_players]
      dsimp only
      rw [getD_set_self _ _ _ _ hMover]
    · intro j hj hjm
      simp only [home_post]
      rw [csw_players]
      dsimp only
      rw [getD_set_of_ne _ _ _ _ _ (Ne.symm hjm)]

/-- Witness for C5 at a concrete input: in `G5` red's piece at 44 with a roll
of 4 lands exactly on the home index. -/
theorem C5_exact_home_witness :
    G5.status = GameStatus.in_progress ∧
    (0 : Int) ≤ 0 ∧ (0 : Int) < 6 ∧ 0 < G5.players.length ∧
    (G5.players.getD 0 default).pieces.getD (0 : Int).toNat Slot.home
      = Slot.onPath 44 ∧
    4 ∈ DICE_VALUES ∧
    ((HOME_INDEX < 44 + effective_roll_of (G5.players.getD 0 default) 44 4 →
      (make_move G5 0 0 4).1.ok = false ∧
      (make_move G5 0 0 4).1.reason = some "overshoot-home" ∧
      (make_move G5 0 0 4).2 = G5) ∧
     (44 + effective_roll_of (G5.players.getD 0 default) 44 4 = HOME_INDEX →
      (make_move G5 0 0 4).1.ok = true ∧
      (make_move G5 0 0 4).1.captured = none ∧
      ((make_move G5 0 0 4).2.players.getD 0 default).pieces
        = (G5.players.getD 0 default).pieces.set (0 : Int).toNat Slot.home ∧
      ((make_move G5 0 0 4).2.players.getD 0 default).finished
        = (G5.players.getD 0 default).finished + 1 ∧
      ((make_move G5 0 0 4).2.players.getD 0 default).kills
        = (G5.players.getD 0 default).kills ∧
      ∀ j, j < G5.players.length → j ≠ 0 →
        (make_move G5 0 0 4).2.players.getD j default
          = G5.players.getD j default)) :=
  ⟨rfl, by decide, by decide, by decide, by decide, by decide,
   C5_exact_home G5 0 0 4 44 rfl (by decide) (by decide) (by decide) (by decide)
     (by decide)⟩

/-- Claim C6: the Lone Wolf cap — when the mover has exactly one Inner/Middle
piece and the moved piece is that piece, the effective roll is
`min diceValue 5`; the cap does not apply when the moved piece is outside
those rings or the mover has two or more pieces there; an applied move lands
at origin plus the effective roll while the bonus still uses the rolled
value. -/
theorem C6_lone_wolf (g : Game) (mover : Nat) (piece_index : Int)
    (roll origin : Nat)
    (hs : g.status = GameStatus.in_progress)
    (h0 : 0 ≤ piece_index) (h6 : piece_index < 6)
    (hSlot : (g.players.getD mover default).pieces.getD piece_index.toNat
        Slot.home = Slot.onPath origin) :
    (count_in_inner_or_middle (g.players.getD mover default) = 1 ∧
        (ring_for_index origin = 1 ∨ ring_for_index origin = 2) →
      effective_roll_of (g.players.getD mover default) origin roll = min roll 5) ∧
    (¬(ring_for_index origin = 1 ∨ ring_for_index origin = 2) ∨
        2 ≤ count_in_inner_or_middle (g.players.getD mover default) →
      effective_roll_of (g.players.getD mover default) origin roll = roll) ∧
    ((make_move g mover piece_index roll).1.ok = true →
      (make_move g mover piece_index roll).1.toPos
        = some (if origin + effective_roll_of (g.players.getD mover default)
              origin roll = HOME_INDEX then Slot.home
            else Slot.onPath (origin
              + effective_roll_of (g.players.getD mover default) origin roll)) ∧
      (make_move g mover piece_index roll).1.bonus
        = (BONUS_VALUES.contains roll
            || (make_move g mover piece_index roll).1.captured.isSome)) := by
  refine ⟨?_, ?_, ?_⟩
  · rintro ⟨hc, hr⟩
    unfold effective_roll_of
    by_cases h5 : 5 < roll
    · rw [if_pos ⟨hc, hr, h5⟩]
      exact (Nat.min_eq_right (Nat.le_of_lt h5)).symm
    · rw [if_neg (fun hcon => h5 hcon.2.2)]
      exact (Nat.min_eq_left (Nat.le_of_not_lt h5)).symm
  · intro hor
    unfold effective_roll_of
    rcases hor with hr | h2
    · rw [if_neg (fun hc => hr hc.2.1)]
    · have hne : count_in_inner_or_middle (g.players.getD mover default) ≠ 1 := by
        omega
      rw [if_neg (fun hc => hne hc.1)]
  · intro hok
    have hred := make_move_eq_onPath g mover piece_index roll origin hs h0 h6 hSlot
    rw [hred] at hok ⊢
    by_cases h1 : HOME_INDEX
        < origin + effective_roll_of (g.players.getD mover default) origin roll
    · rw [move_on_path_overshoot g mover _ roll origin h1] at hok
      exact Bool.noConfusion hok
    · by_cases h2 : ring_for_index origin = 3 ∧
          (if origin + effective_roll_of (g.players.getD mover default) origin roll
              = HOME_INDEX then 0
           else ring_for_index
              (origin + effective_roll_of (g.players.getD mover default) origin roll))
            ≤ 2 ∧
          (g.players.getD mover default).kills = 0
      · rw [move_on_path_bloodgate g mover _ roll origin h1 h2] at hok
        exact Bool.noConfusion hok
      · by_cases h3 : origin
            + effective_roll_of (g.players.getD mover default) origin roll
            = HOME_INDEX
        · rw [move_on_path_home g mover _ roll origin h3
            (bg_reduced_of g mover origin roll h3 h2)]
          constructor
          · rw [if_pos h3]
          · simp
        · rw [move_on_path_normal g mover _ roll origin h1 h2 h3]
          constructor
          · rw [if_neg h3]
          · rfl

/-- Witness for C6 at a concrete input: in `G6` red's lone Inner/Middle piece
at 40 moved with a roll of 6 is capped to 5 and lands on 45. -/
theorem C6_lone_wolf_witness :
    G6.status = GameStatus.in_progress ∧
    (0 : Int) ≤ 0 ∧ (0 : Int) < 6 ∧
    (G6.players.getD 0 default).pieces.getD (0 : Int).toNat Slot.home
      = Slot.onPath 40 ∧
    ((count_in_inner_or_middle (G6.players.getD 0 default) = 1 ∧
        (ring_for_index 40 = 1 ∨ ring_for_index 40 = 2) →
      effective_roll_of (G6.players.getD 0 default) 40 6 = min 6 5) ∧
     (¬(ring_for_index 40 = 1 ∨ ring_for_index 40 = 2) ∨
        2 ≤ count_in_inner_or_middle (G6.players.getD 0 default) →
      effective_roll_of (G6.players.getD 0 default) 40 6 = 6) ∧
     ((make_move G6 0 0 6).1.ok = true →
      (make_move G6 0 0 6).1.toPos
        = some (if 40 + effective_roll_of (G6.players.getD 0 default) 40 6
              = HOME_INDEX then Slot.home
            else Slot.onPath
              (40 + effective_roll_of (G6.players.getD 0 default) 40 6)) ∧
      (make_move G6 0 0 6).1.bonus
        = (BONUS_VALUES.contains 6
            || (make_move G6 0 0 6).1.captured.isSome))) :=
  ⟨rfl, by decide, by decide, by decide,
   C6_lone_wolf G6 0 0 6 40 rfl (by decide) (by decide) (by decide)⟩

/-- Claim C10: every color's entry square is safe, so an applied entry move
captures nothing, changes no opponent and not the mover's kills, and its bonus
depends only on whether the rolled value is in {1,5,6,12}. -/
theorem C10_entry_never_captures (g : Game) (mover : Nat) (piece_index : Int)
    (roll : Nat)
    (hs : g.status = GameStatus.in_progress)
    (h0 : 0 ≤ piece_index) (h6 : piece_index < 6)
    (hMover : mover < g.players.length)
    (hSlot : (g.players.getD mover default).pieces.getD piece_index.toNat
        Slot.home = Slot.offBoard)
    (hEnter : can_enter_with_roll (g.players.getD mover default) roll = true) :
    (∀ c, SAFE_ZONES.contains (ENTRY_BY_COLOR c) = true) ∧
    (make_move g mover piece_index roll).1.ok = true ∧
    (make_move g mover piece_index roll).1.captured = none ∧
    (make_move g mover piece_index roll).1.bonus = BONUS_VALUES.contains roll ∧
    ((make_move g mover piece_index roll).2.players.getD mover default).kills
      = (g.players.getD mover default).kills ∧
    ∀ j, j < g.players.length → j ≠ mover →
      (make_move g mover piece_index roll).2.players.getD j default
        = g.players.getD j default := by
  have hsafe : ∀ c, SAFE_ZONES.contains (ENTRY_BY_COLOR c) = true := by
    intro c
    cases c <;> decide
  have hred := make_move_eq_entry g mover piece_index roll hs h0 h6 hSlot
  have hcap : entry_post g mover piece_index.toNat
      = (none, { g with players := g.players.set mover (entered_player (g.players.getD mover default) piece_index.toNat) }) := by
    have hsafe2 : SAFE_ZONES.contains
        (entry_index (g.players.getD mover default)) = true :=
      hsafe (g.players.getD mover default).color
    simp only [entry_post, resolve_capture_on_index]
    rw [if_pos hsafe2]
    rfl
  rw [hred, move_entry_applied g mover _ roll hEnter, hcap]
  refine ⟨hsafe, rfl, rfl, ?_, ?_, ?_⟩
  · simp
  · dsimp only
    rw [getD_set_self _ _ _ _ hMover]
    rfl
  · intro j hj hjm
    dsimp only
    rw [getD_set_of_ne _ _ _ _ _ (Ne.symm hjm)]

/-- Witness for C10 at a concrete input: in `G8` red enters with a roll of 5. -/
theorem C10_entry_never_captures_witness :
    G8.status = GameStatus.in_progress ∧
    (0 : Int) ≤ 0 ∧ (0 : Int) < 6 ∧ 0 < G8.players.length ∧
    (G8.players.getD 0 default).pieces.getD (0 : Int).toNat Slot.home
      = Slot.offBoard ∧
    can_enter_with_roll (G8.players.getD 0 default) 5 = true ∧
    ((∀ c, SAFE_ZONES.contains (ENTRY_BY_COLOR c) = true) ∧
     (make_move G8 0 0 5).1.ok = true ∧
     (make_move G8 0 0 5).1.captured = none ∧
     (make_move G8 0 0 5).1.bonus = BONUS_VALUES.contains 5 ∧
     ((make_move G8 0 0 5).2.players.getD 0 default).kills
       = (G8.players.getD 0 default).kills ∧
     ∀ j, j < G8.players.length → j ≠ 0 →
       (make_move G8 0 0 5).2.players.getD j default
         = G8.players.getD j default) :=
  ⟨rfl, by decide, by decide, by decide, by decide, by decide,
   C10_entry_never_captures G8 0 0 5 rfl (by decide) (by decide) (by decide)
     (by decide) (by decide)⟩

/-! ### Support lemmas for the piece-count invariant -/

theorem opp_indices_ne (g : Game) (mover : Nat) :
    ∀ j ∈ opponent_indices g mover, j ≠ mover := by
  intro j hj
  simp [opponent_indices] at hj
  exact hj.2

theorem getElem?_of_getD {α : Type} (l : List α) (n : Nat) (d x : α)
    (hn : n < l.length) (h : l.getD n d = x) : l[n]? = some x := by
  rw [List.getD_eq_getElem?_getD, List.getElem?_eq_getElem hn] at h
  rw [List.getElem?_eq_getElem hn]
  simp only [Option.getD_some] at h
  rw [h]

theorem find_piece_at_spec (l : List Slot) (dest : Nat) :
    ∀ k, find_piece_at l dest = some k → l[k]? = some (Slot.onPath dest) := by
  induction l with
  | nil =>
      intro k h
      simp [find_piece_at] at h
  | cons s rest ih =>
      intro k h
      simp only [find_piece_at] at h
      by_cases hs : s = Slot.onPath dest
      · rw [if_pos hs] at h
        cases h
        simp [hs]
      · rw [if_neg hs] at h
        cases hf : find_piece_at rest dest with
        | none =>
            rw [hf] at h
            simp at h
        | some k0 =>
            rw [hf] at h
            simp at h
            subst h
            simpa using ih k0 hf

theorem pieceOk_update_nonhome (p : Player) (pi : Nat) (s t : Slot)
    (hOk : pieceOk p) (hpi : p.pieces[pi]? = some s)
    (h1 : isHomeSlot s = false) (h2 : isHomeSlot t = false) :
    pieceOk { p with pieces := p.pieces.set pi t } := by
  obtain ⟨hl, _, hf⟩ := hOk
  refine ⟨?_, ?_, ?_⟩
  · simpa [List.length_set] using hl
  · rw [count_partition]
    simp [List.length_set, hl]
  · dsimp only
    rw [countHome_set_of_ne p.pieces pi s t hpi h1 h2]
    exact hf

theorem pieceOk_update_home (p : Player) (pi : Nat) (s : Slot)
    (hOk : pieceOk p) (hpi : p.pieces[pi]? = some s) (h1 : isHomeSlot s = false) :
    pieceOk { p with pieces := p.pieces.set pi Slot.home, finished := p.finished + 1 } := by
  obtain ⟨hl, _, hf⟩ := hOk
  refine ⟨?_, ?_, ?_⟩
  · simpa [List.length_set] using hl
  · rw [count_partition]
    simp [List.length_set, hl]
  · dsimp only
    rw [countHome_set_home p.pieces pi s hpi h1, ← hf]

theorem forall_pieceOk_set (l : List Player) (j : Nat) (q : Player)
    (hAll : ∀ p ∈ l, pieceOk p) (hq : pieceOk q) :
    ∀ p ∈ l.set j q, pieceOk p := by
  intro p hp
  rcases List.mem_or_eq_of_mem_set hp with hmem | rfl
  · exact hAll p hmem
  · exact hq

theorem entry_square_safe :
    ∀ c, SAFE_ZONES.contains (ENTRY_BY_COLOR c) = true := by
  intro c
  cases c <;> decide

theorem entry_post_eq (g : Game) (mover pi : Nat) :
    entry_post g mover pi
      = (none, { g with players := g.players.set mover (entered_player (g.players.getD mover default) pi) }) := by
  have hsafe2 : SAFE_ZONES.contains
      (entry_index (g.players.getD mover default)) = true :=
    entry_square_safe (g.players.getD mover default).color
  simp only [entry_post, resolve_capture_on_index]
  rw [if_pos hsafe2]
  rfl

theorem scan_preserves (g : Game) (mover dest : Nat)
    (hMover : mover < g.players.length)
    (hAll : ∀ p ∈ g.players, pieceOk p) :
    ∀ js : List Nat, (∀ j ∈ js, j ≠ mover) →
      (∀ p ∈ (make_move_capture_scan g mover dest js).2.players, pieceOk p) ∧
      ((make_move_capture_scan g mover dest js).2.players.getD mover default).pieces
        = (g.players.getD mover default).pieces ∧
      ((make_move_capture_scan g mover dest js).2.players.getD mover
          default).finished
        = (g.players.getD mover default).finished ∧
      (make_move_capture_scan g mover dest js).2.players.length
        = g.players.length := by
  intro js
  induction js with
  | nil =>
      intro _
      exact ⟨hAll, rfl, rfl, rfl⟩
  | cons j rest ih =>
      intro hjs
      have hjm : j ≠ mover := hjs j (by simp)
      have hrest : ∀ a ∈ rest, a ≠ mover := fun a ha => hjs a (by simp [ha])
      cases hf : find_piece_at (g.players.getD j default).pieces dest with
      | none =>
          simp only [make_move_capture_scan, hf]
          exact ih hrest
      | some k =>
          simp only [make_move_capture_scan, hf]
          by_cases hprot : 2 ≤ count_in_inner_or_middle (g.players.getD j default) ∧
              count_in_inner_or_middle (g.players.getD mover default) = 1
          · rw [if_pos hprot]
            exact ih hrest
          · rw [if_neg hprot]
            have hjlen : j < g.players.length := by
              by_contra hge
              have hdef : g.players.getD j default = default := by
                rw [List.getD_eq_getElem?_getD,
                  List.getElem?_eq_none (Nat.le_of_not_lt hge)]
                rfl
              rw [hdef] at hf
              simp [find_piece_at] at hf
            have hopp := hAll _ (getD_mem g.players j default hjlen)
            have hslotk := find_piece_at_spec (g.players.getD j default).pieces
              dest k hf
            have hopp2 : pieceOk { (g.players.getD j default) with pieces := (g.players.getD j default).pieces.set k Slot.offBoard } :=
              pieceOk_update_nonhome _ k _ _ hopp hslotk rfl rfl
            have hp := hAll _ (getD_mem g.players mover default hMover)
            dsimp only [apply_capture]
            have hmv : ((g.players.set j { (g.players.getD j default) with pieces := (g.players.getD j default).pieces.set k Slot.offBoard }).getD mover default) = g.players.getD mover default :=
              getD_set_of_ne _ _ _ _ _ hjm
            have hlen1 : mover < (g.players.set j { (g.players.getD j default) with pieces := (g.players.getD j default).pieces.set k Slot.offBoard }).length := by
              simpa [List.length_set] using hMover
            refine ⟨?_, ?_, ?_, ?_⟩
            · apply forall_pieceOk_set
              · exact forall_pieceOk_set _ _ _ hAll hopp2
              · rw [hmv]
                exact ⟨hp.1, hp.2.1, hp.2.2⟩
            · dsimp only
              rw [getD_set_self _ _ _ _ hlen1]
              dsimp only
              rw [hmv]
            · dsimp only
              rw [getD_set_self _ _ _ _ hlen1]
              dsimp only
              rw [hmv]
            · simp [List.length_set]

/-- Claim C9: from a state where every player satisfies the piece-count
invariant (six slots, OffBoard+OnPath+Home counts summing to six, `finished`
equal to the Home count), every applied move — entry, movement, capture or
home arrival — yields a state where every player still satisfies it. -/
theorem C9_piece_invariant (g : Game) (mover : Nat) (piece_index : Int)
    (roll : Nat)
    (hMover : mover < g.players.length)
    (hInv : ∀ p ∈ g.players, pieceOk p)
    (hOk : (make_move g mover piece_index roll).1.ok = true) :
    ∀ p ∈ (make_move g mover piece_index roll).2.players, pieceOk p := by
  have hp := hInv _ (getD_mem g.players mover default hMover)
  by_cases hs : g.status = GameStatus.in_progress
  · by_cases hidx : 0 ≤ piece_index ∧ piece_index < 6
    · have hpinat : piece_index.toNat < 6 := by omega
      have hpilen : piece_index.toNat < (g.players.getD mover default).pieces.length := by
        rw [hp.1]
        exact hpinat
      cases hslot : (g.players.getD mover default).pieces.getD piece_index.toNat
          Slot.home with
      | offBoard =>
          have hpi0 : (g.players.getD mover default).pieces[piece_index.toNat]?
              = some Slot.offBoard :=
            getElem?_of_getD _ _ _ _ hpilen hslot
          rw [make_move_eq_entry g mover piece_index roll hs hidx.1 hidx.2 hslot]
            at hOk ⊢
          by_cases hce : can_enter_with_roll (g.players.getD mover default) roll
              = false
          · rw [move_entry_reject g mover _ roll hce] at hOk
            exact Bool.noConfusion hOk
          · rw [move_entry_applied g mover _ roll (by simpa using hce)]
            rw [entry_post_eq g mover piece_index.toNat]
            dsimp only
            apply forall_pieceOk_set _ _ _ hInv
            exact pieceOk_update_nonhome _ piece_index.toNat Slot.offBoard _
              hp hpi0 rfl rfl
      | onPath origin =>
          have hpi0 : (g.players.getD mover default).pieces[piece_index.toNat]?
              = some (Slot.onPath origin) :=
            getElem?_of_getD _ _ _ _ hpilen hslot
          rw [make_move_eq_onPath g mover piece_index roll origin hs hidx.1 hidx.2
            hslot] at hOk ⊢
          by_cases h1 : HOME_INDEX
              < origin + effective_roll_of (g.players.getD mover default) origin roll
          · rw [move_on_path_overshoot g mover _ roll origin h1] at hOk
            exact Bool.noConfusion hOk
          · by_cases h2 : ring_for_index origin = 3 ∧
                (if origin + effective_roll_of (g.players.getD mover default)
                    origin roll = HOME_INDEX then 0
                 else ring_for_index (origin
                    + effective_roll_of (g.players.getD mover default) origin roll))
                  ≤ 2 ∧
                (g.players.getD mover default).kills = 0
            · rw [move_on_path_bloodgate g mover _ roll origin h1 h2] at hOk
              exact Bool.noConfusion hOk
            · by_cases h3 : origin
                  + effective_roll_of (g.players.getD mover default) origin roll
                  = HOME_INDEX
              · rw [move_on_path_home g mover _ roll origin h3
                  (bg_reduced_of g mover origin roll h3 h2)]
                simp only [home_post]
                rw [csw_players]
                dsimp only
                apply forall_pieceOk_set _ _ _ hInv
                exact pieceOk_update_home _ piece_index.toNat (Slot.onPath origin)
                  hp hpi0 rfl
              · rw [move_on_path_normal g mover _ roll origin h1 h2 h3]
                simp only [normal_post]
                by_cases hnsafe : SAFE_ZONES.contains (origin
                    + effective_roll_of (g.players.getD mover default) origin roll)
                    = false
                · rw [if_pos hnsafe]
                  obtain ⟨hAll2, hpieces, hfin, hlen⟩ :=
                    scan_preserves g mover (origin
                      + effective_roll_of (g.players.getD mover default) origin roll)
                      hMover hInv (opponent_indices g mover) (opp_indices_ne g mover)
                  apply forall_pieceOk_set _ _ _ hAll2
                  have hlen2 : mover < (make_move_capture_scan g mover (origin
                      + effective_roll_of (g.players.getD mover default) origin roll)
                      (opponent_indices g mover)).2.players.length := by
                    rw [hlen]
                    exact hMover
                  have hp1 := hAll2 _ (getD_mem _ mover default hlen2)
                  refine pieceOk_update_nonhome _ piece_index.toNat
                    (Slot.onPath origin)
                    (Slot.onPath (origin
                      + effective_roll_of (g.players.getD mover default) origin roll))
                    hp1 ?_ rfl rfl
                  rw [hpieces]
                  exact hpi0
                · rw [if_neg hnsafe]
                  dsimp only
                  apply forall_pieceOk_set _ _ _ hInv
                  exact pieceOk_update_nonhome _ piece_index.toNat
                    (Slot.onPath origin) _ hp hpi0 rfl rfl
      | home =>
          rw [make_move_home_slot g mover piece_index roll hs hidx.1 hidx.2 hslot]
            at hOk
          exact Bool.noConfusion hOk
    · rw [make_move_bad_index g mover piece_index roll hs hidx] at hOk
      exact Bool.noConfusion hOk
  · rw [make_move_not_active g mover piece_index roll hs] at hOk
    exact Bool.noConfusion hOk

/-- Witness for C9 at a concrete input: red's exact home arrival in `G5`
(the move that increments `finished`). -/
theorem C9_piece_invariant_witness :
    0 < G5.players.length ∧
    (∀ p ∈ G5.players, pieceOk p) ∧
    (make_move G5 0 0 4).1.ok = true ∧
    ∀ p ∈ (make_move G5 0 0 4).2.players, pieceOk p := by
  have hinv : ∀ p ∈ G5.players, pieceOk p := by
    intro p hpmem
    rcases List.mem_cons.mp hpmem with rfl | hrest
    · exact ⟨rfl, rfl, rfl⟩
    · rcases List.mem_cons.mp hrest with rfl | hnil
      · exact ⟨rfl, rfl, rfl⟩
      · cases hnil
  exact ⟨by decide, hinv, by decide,
    C9_piece_invariant G5 0 0 4 (by decide) hinv (by decide)⟩

end AshtaChamma
